import Mathlib

/-!
Shallow embedding of the file-handle cache and namespace layer
(src/rgw/rgw_file.h) and of the session map (src/mds/SessionMap.h) of this
repository, with theorems settling the frozen claims about them.

The seeded 64-bit hash XXH64 comes from the external xxhash library, so it
is kept abstract: every definition that hashes bytes takes a parameter
H : List Char → Nat standing for fun bytes => XXH64 bytes seed.  The spec
fixes only the contract of the hash, not its values, so theorems quantify
over H and concrete evaluations instantiate it.
-/

namespace rgw

/-- Key of a file handle: the rgw_fh_hk pair (bucket hash, object hash)
carried by struct fh_key, flattened into one structure. -/
structure fh_key where
  bucket : Nat
  object : Nat
deriving DecidableEq, Repr

/-- Fixed hash seed fh_key::seed. -/
def fh_key.seed : Nat := 8675309

/-- Constructor fh_key(const uint64_t bk, const uint64_t ok). -/
def fh_key.ofHashes (bk ok : Nat) : fh_key := ⟨bk, ok⟩

/-- Constructor fh_key(const uint64_t bk, const char *o), which computes
object = XXH64(o, strlen(o), seed).  The strings fed to it carry no NUL
byte, so strlen covers the whole string. -/
def fh_key.ofBkStr (H : List Char → Nat) (bk : Nat) (o : String) : fh_key :=
  ⟨bk, H o.data⟩

/-- Constructor fh_key(const std::string b, const std::string o), which
computes bucket = XXH64(b.c_str(), o.length(), seed) — with the length of
o, exactly as written in the source — and
object = XXH64(o.c_str(), o.length(), seed).  Reading o.length() bytes
from b's buffer is modelled with List.take; in C++ the read runs past the
end of b whenever o is longer than b. -/
def fh_key.ofStrings (H : List Char → Nat) (b o : String) : fh_key :=
  ⟨H (b.data.take o.data.length), H o.data⟩

/-- The node type tags RGW_FS_TYPE_DIRECTORY / RGW_FS_TYPE_FILE from the
external include/rados/rgw_file.h header. -/
inductive RgwFsType where
  | RGW_FS_TYPE_DIRECTORY
  | RGW_FS_TYPE_FILE
deriving DecidableEq, Repr

/-- The boost::variant<file, directory> member variant_type of
RGWFileHandle.  A default-constructed boost::variant holds its first
alternative, file.  The file alternative's write_req pointer plays no part
in any claim and is dropped; the directory alternative carries its flags
word and the marker_cache flat_map. -/
inductive VariantType where
  | file
  | directory (flags : Nat) (marker_cache : List (Nat × String))
deriving DecidableEq, Repr

/-- RGWFileHandle.  parent and bucket are the two weak back-pointers,
modelled by value; depth is the uint16 depth field, kept as a Nat that the
constructor reduces mod 2^16.  The mutable stat block (dev, size, nlink,
times), the mutex and the intrusive LRU/tree hooks play no part in any
claim and are omitted. -/
inductive RGWFileHandle : Type where
  | mk (fhk : fh_key) (name : String) (depth : Nat) (flags : Nat)
      (fh_type : RgwFsType) (variant_type : VariantType)
      (parent : Option RGWFileHandle) (bucket : Option RGWFileHandle)

namespace RGWFileHandle

def FLAG_NONE : Nat := 0x0000

def FLAG_OPEN : Nat := 0x0001

def FLAG_ROOT : Nat := 0x0002

def FLAG_CREATE : Nat := 0x0004

def FLAG_PSEUDO : Nat := 0x0008

def FLAG_DIRECTORY : Nat := 0x0010

def FLAG_BUCKET : Nat := 0x0020

def FLAG_LOCK : Nat := 0x0040

def MAX_DEPTH : Nat := 256

def fhk : RGWFileHandle → fh_key
  | .mk k _ _ _ _ _ _ _ => k

def name : RGWFileHandle → String
  | .mk _ nm _ _ _ _ _ _ => nm

def depth : RGWFileHandle → Nat
  | .mk _ _ d _ _ _ _ _ => d

def flags : RGWFileHandle → Nat
  | .mk _ _ _ fl _ _ _ _ => fl

def fh_type : RGWFileHandle → RgwFsType
  | .mk _ _ _ _ ty _ _ _ => ty

def variant_type : RGWFileHandle → VariantType
  | .mk _ _ _ _ _ var _ _ => var

def parent : RGWFileHandle → Option RGWFileHandle
  | .mk _ _ _ _ _ _ par _ => par

def bucket : RGWFileHandle → Option RGWFileHandle
  | .mk _ _ _ _ _ _ _ bkt => bkt

/-- Accessor get_key. -/
def get_key (h : RGWFileHandle) : fh_key := h.fhk

/-- Replace the flags word, leaving every other field alone (the effect of
an assignment to the flags member under the handle mutex). -/
def withFlags : RGWFileHandle → Nat → RGWFileHandle
  | .mk k nm d _ ty var par bkt, fl => .mk k nm d fl ty var par bkt

def is_open (h : RGWFileHandle) : Bool := h.flags &&& FLAG_OPEN != 0

def is_root (h : RGWFileHandle) : Bool := h.flags &&& FLAG_ROOT != 0

def is_bucket (h : RGWFileHandle) : Bool := h.flags &&& FLAG_BUCKET != 0

/-- The private root constructor RGWFileHandle(RGWLibFS*, uint32_t
fs_inst): no parent, no bucket pointer, depth 0, FLAG_ROOT, directory
type.  fs_inst only feeds the stat dev field, which is not modelled; the
fh_key member is left default-constructed (uninitialized in the source)
until init_rootfs fills it. -/
def rootCtor (fs_inst : Nat) : RGWFileHandle :=
  .mk ⟨0, 0⟩ "" 0 FLAG_ROOT .RGW_FS_TYPE_DIRECTORY .file none none

/-- init_rootfs(fsid, object_name): sets the key to
(XXH64(fsid), XXH64(object_name)) with the fixed seed and the name to
object_name. -/
def init_rootfs (H : List Char → Nat) (h : RGWFileHandle)
    (fsid object_name : String) : RGWFileHandle :=
  match h with
  | .mk _ _ d fl ty var par bkt =>
      .mk ⟨H fsid.data, H object_name.data⟩ object_name d fl ty var par bkt

/-- The public constructor RGWFileHandle(fs, fs_inst, parent, fhk, name,
flags): a root parent forces directory type and FLAG_BUCKET; otherwise the
bucket back-pointer is the parent itself when the parent carries
FLAG_BUCKET and the parent's bucket pointer otherwise, and the type
follows FLAG_DIRECTORY.  depth = parent->depth + 1 in uint16 arithmetic.
The variant_type member is never assigned, so it keeps the
default-constructed first alternative, file. -/
def ctor (parent : RGWFileHandle) (fhk0 : fh_key) (nm : String)
    (flags0 : Nat) : RGWFileHandle :=
  if parent.is_root then
    .mk fhk0 nm ((parent.depth + 1) % 65536) (flags0 ||| FLAG_BUCKET)
      .RGW_FS_TYPE_DIRECTORY .file (some parent) none
  else
    .mk fhk0 nm ((parent.depth + 1) % 65536) flags0
      (if flags0 &&& FLAG_DIRECTORY ≠ 0 then .RGW_FS_TYPE_DIRECTORY
       else .RGW_FS_TYPE_FILE)
      .file (some parent)
      (if parent.flags &&& FLAG_BUCKET ≠ 0 then some parent
       else parent.bucket)

/-- The name-collecting loop inside full_object_name: starting at this
handle, push object_name() and climb the parent pointer while the current
handle exists and is not a bucket. -/
def segments : RGWFileHandle → List String
  | .mk _ nm _ fl _ _ none _ =>
      if fl &&& FLAG_BUCKET ≠ 0 then [] else [nm]
  | .mk _ nm _ fl _ _ (some p) _ =>
      if fl &&& FLAG_BUCKET ≠ 0 then [] else nm :: segments p

/-- full_object_name(min_depth): empty for depth ≤ min_depth, otherwise
the collected segments in root-to-leaf order joined with "/". -/
def full_object_name (h : RGWFileHandle) (min_depth : Nat) : String :=
  if h.depth ≤ min_depth then ""
  else String.intercalate "/" (segments h).reverse

/-- make_key_name(name): full_object_name() (min_depth 1), then "/" and
the child name when the path is non-empty, else just the child name. -/
def make_key_name (h : RGWFileHandle) (nm : String) : String :=
  let key_name := full_object_name h 1
  if key_name.length > 0 then key_name ++ "/" ++ nm else nm

/-- make_fhk(name): for depth ≤ 1 the key (object hash, XXH64(name));
deeper, (object hash, XXH64(make_key_name(name))). -/
def make_fhk (H : List Char → Nat) (h : RGWFileHandle) (nm : String) :
    fh_key :=
  if h.depth ≤ 1 then fh_key.ofBkStr H h.fhk.object nm
  else fh_key.ofBkStr H h.fhk.object (make_key_name h nm)

/-- boost flat_map insert used by add_marker: ordered insert that leaves
an existing entry with the same key untouched. -/
def flatMapInsert : List (Nat × String) → Nat → String → List (Nat × String)
  | [], k, v => [(k, v)]
  | (k0, v0) :: rest, k, v =>
      if k < k0 then (k, v) :: (k0, v0) :: rest
      else if k = k0 then (k0, v0) :: rest
      else (k0, v0) :: flatMapInsert rest k v

/-- boost flat_map find. -/
def flatMapFind : List (Nat × String) → Nat → Option String
  | [], _ => none
  | (k0, v0) :: rest, k => if k = k0 then some v0 else flatMapFind rest k

/-- add_marker(off, marker): insert into the marker cache when the
variant currently holds the directory alternative, else do nothing. -/
def add_marker (h : RGWFileHandle) (off : Nat) (marker : String) :
    RGWFileHandle :=
  match h with
  | .mk k nm d fl ty var par bkt =>
      match var with
      | .directory dfl mc =>
          .mk k nm d fl ty (.directory dfl (flatMapInsert mc off marker))
            par bkt
      | .file => .mk k nm d fl ty var par bkt

/-- find_marker(off): the cached name at offset off when the variant holds
the directory alternative and the offset is present, else the empty
string. -/
def find_marker (h : RGWFileHandle) (off : Nat) : String :=
  match h.variant_type with
  | .directory _ mc =>
      match flatMapFind mc off with
      | some s => s
      | none => ""
  | .file => ""

/-- POSIX EPERM, the errno returned by a second open. -/
def EPERM : Nat := 1

/-- open(gsh_flags): under the handle mutex, return 0 and set FLAG_OPEN
when it is clear, else return EPERM and change nothing.  gsh_flags is
ignored by the source as well. -/
def open' (h : RGWFileHandle) (gsh_flags : Nat) : Nat × RGWFileHandle :=
  if h.flags &&& FLAG_OPEN = 0 then
    (0, h.withFlags (h.flags ||| FLAG_OPEN))
  else (EPERM, h)

end RGWFileHandle

/-- Modelled from the spec: root_name, the name of the mount root,
declared in RGWFileHandle but defined outside src/; per the spec the root
object name is "/". -/
def root_name : String := "/"

/-- The filesystem context RGWLibFS.  Of its members only the flags word
and the handle cache matter to the claims.  Modelled from the spec: the
sharded TreeX index fh_cache and the LRU lane set fh_lru live in
common/cohort_lru.h, outside src/; per §4.2/§4.3 the index behaves as a
key-addressed map of live handles and LRU admission always yields a
handle, so the two structures collapse into one list of cached handles.
The uninitialized flags word of the source constructor is left
unconstrained by taking it as a plain field. -/
structure RGWLibFS where
  flags : Nat
  fh_cache : List RGWFileHandle

namespace RGWLibFS

def FLAG_NONE : Nat := 0x0000

def FLAG_CLOSED : Nat := 0x0001

end RGWLibFS

/-- Modelled from the spec: FHCache::find_latch restricted to its lookup
behaviour — return the cached handle with the given key, if any.  The
partition latch protocol serializes callers and is invisible to the
sequential model. -/
def fhCacheFind : List RGWFileHandle → fh_key → Option RGWFileHandle
  | [], _ => none
  | fh :: rest, k => if fh.get_key = k then some fh else fhCacheFind rest k

/-- RGWLibFS::lookup_fh(parent, name, cflags).  Mirrors the source: return
null when the context carries FLAG_CLOSED; otherwise compute
key_name = parent->make_key_name(name) and fhk = parent->make_fhk(key_name),
probe the cache under fhk, and on a miss construct the handle through the
factory (with the short name) and publish it under fhk.  The LRU ref/insert
retry loop always succeeds in the sequential model, per §4.3. -/
def RGWLibFS.lookup_fh (H : List Char → Nat) (fs : RGWLibFS)
    (parent : RGWFileHandle) (nm : String) (cflags : Nat) :
    Option RGWFileHandle × RGWLibFS :=
  if fs.flags &&& RGWLibFS.FLAG_CLOSED ≠ 0 then (none, fs)
  else
    let obj_name := nm
    let key_name := parent.make_key_name nm
    let fhk := RGWFileHandle.make_fhk H parent key_name
    match fhCacheFind fs.fh_cache fhk with
    | some fh => (some fh, fs)
    | none =>
        let fh := RGWFileHandle.ctor parent fhk obj_name cflags
        (some fh, ⟨fs.flags, fh :: fs.fh_cache⟩)

/-- RGWLibFS::lookup_handle(fh_hk): null when the context carries
FLAG_CLOSED, else a plain cache probe under the raw key. -/
def RGWLibFS.lookup_handle (fs : RGWLibFS) (hk : fh_key) :
    Option RGWFileHandle :=
  if fs.flags &&& RGWLibFS.FLAG_CLOSED ≠ 0 then none
  else fhCacheFind fs.fh_cache hk

/-- RGWLibFS::close(): set FLAG_CLOSED, then drain the cache, unref-ing
every handle so that it is evicted; afterwards the cache holds nothing. -/
def RGWLibFS.close (fs : RGWLibFS) : RGWLibFS :=
  ⟨fs.flags ||| RGWLibFS.FLAG_CLOSED, []⟩

/-- RGWReadRequest's fields that send_response_data touches: the running
byte count nread and the requested length read_len.  The destination
pointer ulp_buffer is external memory; the bytes memcpy'd into it are
accounted by nread. -/
structure RGWReadRequest where
  nread : Nat
  read_len : Nat
deriving DecidableEq, Repr

/-- The C cast size_t(x) applied to a signed off_t value. -/
def sizeT (x : Int) : Nat := (x % (2 ^ 64)).toNat

/-- The loop of RGWReadRequest::send_response_data over bl.buffers(),
with each buffer abstracted to its byte length: for each buffer, stop if
nread ≥ read_len, else copy
bytes = min(min(read_len, bp.length()), size_t(e_off)) and advance nread,
off and s_off.  off and the memcpy addresses do not feed back into the
count and are dropped. -/
def sendResponseLoop (read_len : Nat) : Nat → List Nat → Int → Int → Nat
  | nread, [], _, _ => nread
  | nread, bp :: rest, s_off, e_off =>
      if nread ≥ read_len then nread
      else
        let bytes := min (min read_len bp) (sizeT e_off)
        sendResponseLoop read_len (nread + bytes) rest (s_off - bytes) e_off

/-- RGWReadRequest::send_response_data(bl, s_off, e_off): run the copy
loop and record the new nread. -/
def RGWReadRequest.send_response_data (r : RGWReadRequest) (bl : List Nat)
    (s_off e_off : Int) : RGWReadRequest :=
  ⟨sendResponseLoop r.read_len r.nread bl s_off e_off, r.read_len⟩

end rgw

/-- A session of the MDS session map.  The list-typed members (requests,
caps, leases), the timestamps and the back-pointers play no part in the
claims and are omitted; entity_inst_t is abstracted to a Nat identity.
The three inode interval sets are modelled as finite sets of inode
numbers and the completed-request set as a finite set of tids. -/
structure Session where
  state : Nat
  state_seq : Nat
  inst : Nat
  pending_prealloc_inos : Finset Nat
  prealloc_inos : Finset Nat
  used_inos : Finset Nat
  cap_push_seq : Nat
  completed_requests : Finset Nat
deriving DecidableEq

namespace Session

def STATE_NEW : Nat := 0

def STATE_OPENING : Nat := 1

def STATE_OPEN : Nat := 2

def STATE_CLOSING : Nat := 3

def STATE_STALE : Nat := 4

def STATE_STALE_PURGING : Nat := 5

def STATE_STALE_CLOSING : Nat := 6

def STATE_CLOSED : Nat := 7

/-- Session::take_ino(ino): the source asserts that prealloc_inos is
non-empty (failure kind NO_PREALLOC per the spec), modelled as none.  With
a non-zero hint that prealloc_inos contains, erase exactly the hint;
otherwise take prealloc_inos.start(), the smallest preallocated inode.
The taken inode is inserted into used_inos and returned. -/
def take_ino (s : Session) (ino : Nat) : Option (Nat × Session) :=
  if h0 : s.prealloc_inos = ∅ then none
  else
    if ino ≠ 0 ∧ ino ∈ s.prealloc_inos then
      some (ino, { s with prealloc_inos := s.prealloc_inos.erase ino,
                          used_inos := insert ino s.used_inos })
    else
      let m := s.prealloc_inos.min' (Finset.nonempty_iff_ne_empty.mpr h0)
      some (m, { s with prealloc_inos := s.prealloc_inos.erase m,
                        used_inos := insert m s.used_inos })

/-- One component written to the bufferlist by a ::encode call inside
Session::encode/decode.  Modelled from the spec: the byte-level encoders
of __u8, entity_inst_t, set<tid_t> and interval_set live outside src/, so
each encoded component is one opaque token. -/
inductive EncToken where
  | ver (v : Nat)
  | inst (i : Nat)
  | tidset (ts : Finset Nat)
  | inoset (s : Finset Nat)
deriving DecidableEq

/-- Session::encode: version byte 1, then inst, completed_requests,
prealloc_inos and used_inos, in that order. -/
def encode (s : Session) : List EncToken :=
  [.ver 1, .inst s.inst, .tidset s.completed_requests,
   .inoset s.prealloc_inos, .inoset s.used_inos]

/-- Session::decode: read the five components in encode order into this
session, then fold used_inos into prealloc_inos
(prealloc_inos.insert(used_inos)) and clear used_inos.  A stream that does
not carry the five components in order fails to decode. -/
def decode (s : Session) (p : List EncToken) :
    Option (Session × List EncToken) :=
  match p with
  | .ver _ :: .inst i :: .tidset cr :: .inoset pre :: .inoset used :: rest =>
      some ({ s with inst := i, completed_requests := cr,
                     prealloc_inos := pre ∪ used,
                     used_inos := ∅ }, rest)
  | _ => none

end Session

namespace rgw

/-- A concrete hash instantiation used by the closed evaluations: the byte
length of the input.  It distinguishes every pair of inputs the closed
theorems compare, as XXH64 does. -/
def H0 : List Char → Nat := fun l => l.length

/-- A root handle built the way RGWLibFS's constructor builds root_fh:
root constructor, then init_rootfs with fsid
root_name + "rgw_fs_inst-" + inst and object name root_name. -/
def exRoot : RGWFileHandle :=
  RGWFileHandle.init_rootfs H0 (RGWFileHandle.rootCtor 1) "/rgw_fs_inst-1"
    root_name

/-- A bucket handle "b": child of the root, constructed with the key a
lookup would use. -/
def exBucket : RGWFileHandle :=
  RGWFileHandle.ctor exRoot
    (RGWFileHandle.make_fhk H0 exRoot (exRoot.make_key_name "b")) "b"
    RGWFileHandle.FLAG_NONE

/-- A directory handle "d" inside bucket "b", depth 2. -/
def exDir : RGWFileHandle :=
  RGWFileHandle.ctor exBucket
    (RGWFileHandle.make_fhk H0 exBucket (exBucket.make_key_name "d")) "d"
    RGWFileHandle.FLAG_DIRECTORY

/-- An open filesystem context with an empty handle cache. -/
def exFS : RGWLibFS := ⟨0, []⟩

/-- A parent chain of directories below the root: chainFH 0 is the root,
chainFH 1 the bucket the root-parent constructor forces, and each further
level a directory named "d". -/
def chainFH : Nat → RGWFileHandle
  | 0 => exRoot
  | k + 1 =>
      RGWFileHandle.ctor (chainFH k) ⟨0, 0⟩ "d" RGWFileHandle.FLAG_DIRECTORY

end rgw

/-- A concrete open session with preallocated inodes 3 and 5. -/
def sEx : Session :=
  ⟨Session.STATE_OPEN, 0, 7, ∅, {3, 5}, ∅, 0, ∅⟩

/-- A concrete session with no preallocated inodes. -/
def sEmpty : Session :=
  ⟨Session.STATE_OPEN, 0, 7, ∅, ∅, {4}, 0, {9}⟩


namespace rgw

/-! Helper lemmas shared by the claim theorems. -/

theorem lor_one_land_one (f : Nat) : (f ||| 1) &&& 1 = 1 := by
  apply Nat.eq_of_testBit_eq
  intro i
  rw [Nat.testBit_land, Nat.testBit_lor]
  cases Nat.testBit 1 i <;> cases Nat.testBit f i <;> rfl

theorem ctor_depth (p : RGWFileHandle) (k : fh_key) (nm : String)
    (fl : Nat) :
    (RGWFileHandle.ctor p k nm fl).depth = (p.depth + 1) % 65536 := by
  unfold RGWFileHandle.ctor
  split <;> rfl

theorem chainFH_depth : ∀ k, k < 65536 → (chainFH k).depth = k
  | 0, _ => rfl
  | k + 1, h => by
      show (RGWFileHandle.ctor (chainFH k) ⟨0, 0⟩ "d"
        RGWFileHandle.FLAG_DIRECTORY).depth = k + 1
      rw [ctor_depth, chainFH_depth k (Nat.lt_of_succ_lt h)]
      exact Nat.mod_eq_of_lt h

theorem lookup_fh_closed (H : List Char → Nat) (fs : RGWLibFS)
    (p : RGWFileHandle) (nm : String) (c : Nat)
    (h : fs.flags &&& RGWLibFS.FLAG_CLOSED ≠ 0) :
    fs.lookup_fh H p nm c = (none, fs) := by
  unfold RGWLibFS.lookup_fh
  rw [if_pos h]

theorem lookup_fh_hit (H : List Char → Nat) (fs : RGWLibFS)
    (p : RGWFileHandle) (nm : String) (c : Nat) (fh : RGWFileHandle)
    (hopen : fs.flags &&& RGWLibFS.FLAG_CLOSED = 0)
    (hhit : fhCacheFind fs.fh_cache
      (RGWFileHandle.make_fhk H p (p.make_key_name nm)) = some fh) :
    fs.lookup_fh H p nm c = (some fh, fs) := by
  have hc : ¬(fs.flags &&& RGWLibFS.FLAG_CLOSED ≠ 0) := fun hcc => hcc hopen
  unfold RGWLibFS.lookup_fh
  rw [if_neg hc]
  simp only [hhit]

theorem lookup_fh_miss (H : List Char → Nat) (fs : RGWLibFS)
    (p : RGWFileHandle) (nm : String) (c : Nat)
    (hopen : fs.flags &&& RGWLibFS.FLAG_CLOSED = 0)
    (hmiss : fhCacheFind fs.fh_cache
      (RGWFileHandle.make_fhk H p (p.make_key_name nm)) = none) :
    fs.lookup_fh H p nm c =
      (some (RGWFileHandle.ctor p
        (RGWFileHandle.make_fhk H p (p.make_key_name nm)) nm c),
       ⟨fs.flags, RGWFileHandle.ctor p
        (RGWFileHandle.make_fhk H p (p.make_key_name nm)) nm c ::
        fs.fh_cache⟩) := by
  have hc : ¬(fs.flags &&& RGWLibFS.FLAG_CLOSED ≠ 0) := fun hcc => hcc hopen
  unfold RGWLibFS.lookup_fh
  rw [if_neg hc]
  simp only [hmiss]

theorem full_object_name_shallow (p : RGWFileHandle) (md : Nat)
    (h : p.depth ≤ md) : RGWFileHandle.full_object_name p md = "" := by
  unfold RGWFileHandle.full_object_name
  rw [if_pos h]

theorem make_key_name_shallow (p : RGWFileHandle) (nm : String)
    (h : p.depth ≤ 1) : p.make_key_name nm = nm := by
  unfold RGWFileHandle.make_key_name
  rw [full_object_name_shallow p 1 h]
  simp

theorem make_key_name_deep (p : RGWFileHandle) (nm : String)
    (h : 0 < (RGWFileHandle.full_object_name p 1).length) :
    p.make_key_name nm = RGWFileHandle.full_object_name p 1 ++ "/" ++ nm := by
  unfold RGWFileHandle.make_key_name
  rw [if_pos h]

theorem make_fhk_shallow (H : List Char → Nat) (p : RGWFileHandle)
    (nm : String) (h : p.depth ≤ 1) :
    RGWFileHandle.make_fhk H p nm = ⟨p.fhk.object, H nm.data⟩ := by
  unfold RGWFileHandle.make_fhk
  rw [if_pos h]
  rfl

theorem make_fhk_deep (H : List Char → Nat) (p : RGWFileHandle)
    (nm : String) (h : ¬p.depth ≤ 1) :
    RGWFileHandle.make_fhk H p nm =
      ⟨p.fhk.object, H (p.make_key_name nm).data⟩ := by
  unfold RGWFileHandle.make_fhk
  rw [if_neg h]
  rfl

end rgw

namespace rgw

theorem open_flag_set_neq (f : Nat) :
    (f ||| RGWFileHandle.FLAG_OPEN) &&& RGWFileHandle.FLAG_OPEN ≠ 0 := by
  show (f ||| 1) &&& 1 ≠ 0
  rw [lor_one_land_one]
  exact one_ne_zero

/-- Claim C7 (confirmed): on a handle without FLAG_OPEN, open(flags)
returns 0 and sets FLAG_OPEN; a second open while FLAG_OPEN is set
returns EPERM and leaves the handle - its flags included - unchanged. -/
theorem open_check_and_set (h : RGWFileHandle) (g1 g2 : Nat)
    (hnot : h.flags &&& RGWFileHandle.FLAG_OPEN = 0) :
    (h.open' g1).1 = 0 ∧
    (h.open' g1).2.flags = h.flags ||| RGWFileHandle.FLAG_OPEN ∧
    (h.open' g1).2.open' g2 = (RGWFileHandle.EPERM, (h.open' g1).2) := by
  have e1 : h.open' g1 =
      (0, h.withFlags (h.flags ||| RGWFileHandle.FLAG_OPEN)) := by
    unfold RGWFileHandle.open'
    rw [if_pos hnot]
  have e2 : (h.withFlags (h.flags ||| RGWFileHandle.FLAG_OPEN)).flags =
      h.flags ||| RGWFileHandle.FLAG_OPEN := by
    cases h
    rfl
  have e3 : (h.withFlags (h.flags ||| RGWFileHandle.FLAG_OPEN)).open' g2 =
      (RGWFileHandle.EPERM,
       h.withFlags (h.flags ||| RGWFileHandle.FLAG_OPEN)) := by
    unfold RGWFileHandle.open'
    rw [if_neg (by rw [e2]; exact open_flag_set_neq h.flags)]
  exact ⟨by rw [e1], by rw [e1]; exact e2, by rw [e1]; exact e3⟩

/-- Witness for open_check_and_set: the root handle carries only
FLAG_ROOT, so its FLAG_OPEN bit is clear. -/
theorem open_check_and_set_witness :
    (exRoot.open' 0).1 = 0 ∧
    (exRoot.open' 0).2.flags = exRoot.flags ||| RGWFileHandle.FLAG_OPEN ∧
    (exRoot.open' 0).2.open' 0 = (RGWFileHandle.EPERM, (exRoot.open' 0).2) :=
  open_check_and_set exRoot 0 0 (by decide)

/-- Claim C8 (confirmed): close() sets FLAG_CLOSED; on a context with
FLAG_CLOSED set, lookup_fh returns a null handle and leaves the context -
its handle cache included - unchanged, and lookup_handle returns null. -/
theorem closed_fs_lookups_null (H : List Char → Nat) (fs : RGWLibFS)
    (p : RGWFileHandle) (nm : String) (c : Nat) (hk : fh_key) :
    (fs.close.flags &&& RGWLibFS.FLAG_CLOSED ≠ 0) ∧
    fs.close.lookup_fh H p nm c = (none, fs.close) ∧
    fs.close.lookup_handle hk = none := by
  have hcl : fs.close.flags &&& RGWLibFS.FLAG_CLOSED ≠ 0 := by
    show (fs.flags ||| 1) &&& 1 ≠ 0
    rw [lor_one_land_one]
    exact one_ne_zero
  refine ⟨hcl, lookup_fh_closed H fs.close p nm c hcl, ?_⟩
  unfold RGWLibFS.lookup_handle
  rw [if_pos hcl]

/-- Claim C9 (code_bug): no constructor ever switches variant_type to the
directory alternative, so even on a handle of directory type add_marker is
a no-op and find_marker returns the empty string, never the name just
added.  Evaluated on the directory handle exDir at offset 5, name "a". -/
theorem marker_cache_inoperative :
    exDir.fh_type = RgwFsType.RGW_FS_TYPE_DIRECTORY ∧
    exDir.variant_type = VariantType.file ∧
    exDir.add_marker 5 "a" = exDir ∧
    (exDir.add_marker 5 "a").find_marker 5 = "" ∧
    ("" : String) ≠ "a" :=
  ⟨rfl, rfl, rfl, rfl, by decide⟩

/-- Claim C3 (code_bug): the two-string fh_key constructor hashes the
bucket name with the object name's byte length - XXH64(b.c_str(),
o.length(), seed) - so with b = "ab", o = "x" the bucket hash covers only
the first byte of b and differs from the hash of the full bucket name.
The object hash does cover the full object name, as claimed. -/
theorem fh_key_two_string_bucket_bug :
    fh_key.ofStrings H0 "ab" "x" = ⟨1, 1⟩ ∧
    (fh_key.ofStrings H0 "ab" "x").bucket = H0 ("ab".data.take 1) ∧
    (fh_key.ofStrings H0 "ab" "x").bucket ≠ H0 "ab".data ∧
    (fh_key.ofStrings H0 "ab" "x").object = H0 "x".data := by
  refine ⟨by decide, by decide, by decide, by decide⟩

/-- Claim C4 (code_bug): each loop step bounds its copy by read_len
instead of by read_len - nread, so a buffer list of two 6-byte buffers
against read_len = 10 drives nread to 12, past the requested length. -/
theorem send_response_data_nread_overrun :
    RGWReadRequest.send_response_data ⟨0, 10⟩ [6, 6] 0 100 = ⟨12, 10⟩ ∧
    (RGWReadRequest.send_response_data ⟨0, 10⟩ [6, 6] 0 100).nread >
      (⟨0, 10⟩ : RGWReadRequest).read_len := by
  refine ⟨by decide, by decide⟩

end rgw

/-- Claim C5 (confirmed): decoding an encoded session into any session
yields prealloc_inos equal to the source's prealloc_inos ∪ used_inos,
empty used_inos, and the source's completed_requests (and instance),
consuming the whole stream. -/
theorem session_encode_decode_roundtrip (s t : Session) :
    t.decode s.encode =
      some ({ t with inst := s.inst,
                     completed_requests := s.completed_requests,
                     prealloc_inos := s.prealloc_inos ∪ s.used_inos,
                     used_inos := ∅ }, []) := rfl

/-- Claim C6 (confirmed): with a non-empty prealloc_inos and a non-zero
hint it contains, take_ino removes exactly the hint from prealloc_inos,
inserts it into used_inos and returns it; otherwise it removes, inserts
and returns the smallest preallocated inode (prealloc_inos.start()); with
empty prealloc_inos it fails (NO_PREALLOC, the source's assertion). -/
theorem take_ino_spec (s : Session) :
    (∀ hint : Nat, hint ≠ 0 → hint ∈ s.prealloc_inos →
      s.take_ino hint =
        some (hint, { s with prealloc_inos := s.prealloc_inos.erase hint,
                             used_inos := insert hint s.used_inos })) ∧
    (∀ hint : Nat, ∀ hne : s.prealloc_inos.Nonempty,
      hint = 0 ∨ hint ∉ s.prealloc_inos →
      s.take_ino hint =
        some (s.prealloc_inos.min' hne,
          { s with
              prealloc_inos := s.prealloc_inos.erase (s.prealloc_inos.min' hne),
              used_inos := insert (s.prealloc_inos.min' hne) s.used_inos })) ∧
    (s.prealloc_inos = ∅ → ∀ hint : Nat, s.take_ino hint = none) := by
  refine ⟨?_, ?_, ?_⟩
  · intro hint h0 hmem
    have hne : s.prealloc_inos ≠ ∅ := Finset.ne_empty_of_mem hmem
    unfold Session.take_ino
    rw [dif_neg hne, if_pos (And.intro h0 hmem)]
  · intro hint hne hor
    have hne' : s.prealloc_inos ≠ ∅ := Finset.nonempty_iff_ne_empty.mp hne
    have hcond : ¬(hint ≠ 0 ∧ hint ∈ s.prealloc_inos) := by
      rcases hor with h | h
      · exact fun hc => hc.1 h
      · exact fun hc => h hc.2
    unfold Session.take_ino
    rw [dif_neg hne', if_neg hcond]
  · intro h0 hint
    unfold Session.take_ino
    rw [dif_pos h0]

/-- The example session sEx has a non-empty preallocated set. -/
theorem sEx_prealloc_nonempty : sEx.prealloc_inos.Nonempty :=
  ⟨3, by decide⟩

/-- Witness for take_ino_spec on sEx (prealloc 3 and 5): hint 5 takes 5,
hint 0 takes the smallest, and the empty session sEmpty fails. -/
theorem take_ino_spec_witness :
    sEx.take_ino 5 =
      some (5, { sEx with prealloc_inos := sEx.prealloc_inos.erase 5,
                          used_inos := insert 5 sEx.used_inos }) ∧
    sEx.take_ino 0 =
      some (sEx.prealloc_inos.min' sEx_prealloc_nonempty,
        { sEx with
            prealloc_inos :=
              sEx.prealloc_inos.erase
                (sEx.prealloc_inos.min' sEx_prealloc_nonempty),
            used_inos :=
              insert (sEx.prealloc_inos.min' sEx_prealloc_nonempty)
                sEx.used_inos }) ∧
    sEmpty.take_ino 3 = none :=
  ⟨(take_ino_spec sEx).1 5 (by decide) (by decide),
   (take_ino_spec sEx).2.1 0 sEx_prealloc_nonempty (Or.inl rfl),
   (take_ino_spec sEmpty).2.2 (by decide) 3⟩

namespace rgw

theorem lor_land_absorb (f m : Nat) : (f ||| m) &&& m = m := by
  apply Nat.eq_of_testBit_eq
  intro i
  rw [Nat.testBit_land, Nat.testBit_lor]
  cases Nat.testBit m i <;> cases Nat.testBit f i <;> rfl

theorem ctor_root_eq (p : RGWFileHandle) (k : fh_key) (nm : String)
    (fl : Nat) (h : p.is_root = true) :
    RGWFileHandle.ctor p k nm fl =
      .mk k nm ((p.depth + 1) % 65536) (fl ||| RGWFileHandle.FLAG_BUCKET)
        .RGW_FS_TYPE_DIRECTORY .file (some p) none := by
  unfold RGWFileHandle.ctor
  rw [h]
  rfl

theorem ctor_nonroot_eq (p : RGWFileHandle) (k : fh_key) (nm : String)
    (fl : Nat) (h : p.is_root = false) :
    RGWFileHandle.ctor p k nm fl =
      .mk k nm ((p.depth + 1) % 65536) fl
        (if fl &&& RGWFileHandle.FLAG_DIRECTORY ≠ 0 then
           .RGW_FS_TYPE_DIRECTORY
         else .RGW_FS_TYPE_FILE)
        .file (some p)
        (if p.flags &&& RGWFileHandle.FLAG_BUCKET ≠ 0 then some p
         else p.bucket) := by
  unfold RGWFileHandle.ctor
  rw [h]
  rfl

/-- Claim C1 counterexample: on the depth-2 directory exDir (path "d"
inside bucket "b"), a cold lookup_fh of "f" admits a handle whose key is
not exDir.make_fhk("f") - the admitted key hashes "d/d/f" where the
claim's key hashes "d/f". -/
theorem lookup_fh_probe_key_cex :
    ((exFS.lookup_fh H0 exDir "f" 0).1.map RGWFileHandle.get_key) ≠
      some (RGWFileHandle.make_fhk H0 exDir "f") := by
  decide

/-- Claim C1 amended (corrected): lookup_fh probes the cache under, and
on a miss constructs and inserts the new handle under, exactly the key
parent.make_fhk(parent.make_key_name(n)) - make_key_name is applied once
by lookup_fh itself and then a second time inside make_fhk.  For a parent
of depth ≤ 1 that key is (p.object_hash, H(n)); for a deeper parent with
non-empty parent path fpp it is
(p.object_hash, H(fpp + "/" + fpp + "/" + n)), the full parent path being
prepended twice rather than once. -/
theorem lookup_fh_probe_key (H : List Char → Nat) (fs : RGWLibFS)
    (p : RGWFileHandle) (nm : String) (c : Nat)
    (hopen : fs.flags &&& RGWLibFS.FLAG_CLOSED = 0) :
    (∀ fh, fhCacheFind fs.fh_cache
        (RGWFileHandle.make_fhk H p (p.make_key_name nm)) = some fh →
      fs.lookup_fh H p nm c = (some fh, fs)) ∧
    (fhCacheFind fs.fh_cache
        (RGWFileHandle.make_fhk H p (p.make_key_name nm)) = none →
      fs.lookup_fh H p nm c =
        (some (RGWFileHandle.ctor p
          (RGWFileHandle.make_fhk H p (p.make_key_name nm)) nm c),
         ⟨fs.flags, RGWFileHandle.ctor p
          (RGWFileHandle.make_fhk H p (p.make_key_name nm)) nm c ::
          fs.fh_cache⟩)) ∧
    (p.depth ≤ 1 →
      RGWFileHandle.make_fhk H p (p.make_key_name nm) =
        ⟨p.fhk.object, H nm.data⟩) ∧
    (¬p.depth ≤ 1 → 0 < (RGWFileHandle.full_object_name p 1).length →
      RGWFileHandle.make_fhk H p (p.make_key_name nm) =
        ⟨p.fhk.object,
         H (RGWFileHandle.full_object_name p 1 ++ "/" ++
            (RGWFileHandle.full_object_name p 1 ++ "/" ++ nm)).data⟩) := by
  refine ⟨fun fh hhit => lookup_fh_hit H fs p nm c fh hopen hhit,
          fun hmiss => lookup_fh_miss H fs p nm c hopen hmiss, ?_, ?_⟩
  · intro hd
    rw [make_key_name_shallow p nm hd, make_fhk_shallow H p nm hd]
  · intro hd hlen
    rw [make_fhk_deep H p (p.make_key_name nm) hd]
    rw [make_key_name_deep p (p.make_key_name nm) hlen,
        make_key_name_deep p nm hlen]

/-- Witness for lookup_fh_probe_key: the miss clause and the deep-key
clause evaluated on the open empty context with the depth-2 parent exDir,
and the shallow-key clause on the depth-1 parent exBucket. -/
theorem lookup_fh_probe_key_witness :
    exFS.lookup_fh H0 exDir "f" 0 =
      (some (RGWFileHandle.ctor exDir
        (RGWFileHandle.make_fhk H0 exDir (exDir.make_key_name "f")) "f" 0),
       ⟨exFS.flags, RGWFileHandle.ctor exDir
        (RGWFileHandle.make_fhk H0 exDir (exDir.make_key_name "f")) "f" 0 ::
        exFS.fh_cache⟩) ∧
    RGWFileHandle.make_fhk H0 exDir (exDir.make_key_name "f") =
      ⟨exDir.fhk.object,
       H0 (RGWFileHandle.full_object_name exDir 1 ++ "/" ++
           (RGWFileHandle.full_object_name exDir 1 ++ "/" ++ "f")).data⟩ ∧
    RGWFileHandle.make_fhk H0 exBucket (exBucket.make_key_name "x") =
      ⟨exBucket.fhk.object, H0 "x".data⟩ :=
  ⟨(lookup_fh_probe_key H0 exFS exDir "f" 0 (by decide)).2.1 (by rfl),
   (lookup_fh_probe_key H0 exFS exDir "f" 0 (by decide)).2.2.2 (by decide)
     (by decide),
   (lookup_fh_probe_key H0 exFS exBucket "x" 0 (by decide)).2.2.1
     (by decide)⟩

/-- Claim C2 (code_bug): MAX_DEPTH is declared but never consulted, and
lookup_fh performs no depth check at all.  On a parent 256 levels deep
(chainFH 256) a cold lookup succeeds, admits a new handle into the cache,
and the admitted handle's depth 257 exceeds MAX_DEPTH; no PATH_TOO_DEEP
failure exists anywhere in the code. -/
theorem lookup_fh_no_depth_check :
    ((exFS.lookup_fh H0 (chainFH 256) "f" 0).1.map RGWFileHandle.depth =
      some 257) ∧
    RGWFileHandle.MAX_DEPTH < 257 ∧
    (exFS.lookup_fh H0 (chainFH 256) "f" 0).2.fh_cache.length =
      exFS.fh_cache.length + 1 := by
  have hm := lookup_fh_miss H0 exFS (chainFH 256) "f" 0 (by decide) (by rfl)
  have hd : (RGWFileHandle.ctor (chainFH 256)
      (RGWFileHandle.make_fhk H0 (chainFH 256)
        ((chainFH 256).make_key_name "f")) "f" 0).depth = 257 := by
    rw [ctor_depth, chainFH_depth 256 (by norm_num)]
  refine ⟨?_, by decide, ?_⟩
  · rw [hm]
    simp [hd]
  · rw [hm]
    simp

/-- Claim C10 counterexample: depth is a uint16, so a child of a parent
65535 levels deep - chainFH 65535, reachable precisely because no depth
check exists - gets depth (65535 + 1) mod 2^16 = 0, not
parent.depth + 1 = 65536. -/
theorem ctor_depth_wrap_cex :
    (RGWFileHandle.ctor (chainFH 65535) ⟨0, 0⟩ "c" 0).depth = 0 ∧
    (chainFH 65535).depth + 1 = 65536 ∧ (0 : Nat) ≠ 65536 := by
  have hd : (chainFH 65535).depth = 65535 :=
    chainFH_depth 65535 (by norm_num)
  refine ⟨?_, by rw [hd], by decide⟩
  rw [ctor_depth, hd]

/-- Claim C10 amended (corrected): a root parent forces FLAG_BUCKET and
directory type regardless of the requested flags; with a non-root parent
the bucket back-pointer is the parent itself when the parent carries
FLAG_BUCKET and the parent's bucket pointer otherwise; and in all cases
the child's depth is (parent.depth + 1) mod 2^16, which equals
parent.depth + 1 whenever parent.depth < 65535. -/
theorem ctor_invariants (p : RGWFileHandle) (k : fh_key) (nm : String)
    (fl : Nat) :
    (p.is_root = true →
      (RGWFileHandle.ctor p k nm fl).flags &&&
        RGWFileHandle.FLAG_BUCKET ≠ 0 ∧
      (RGWFileHandle.ctor p k nm fl).fh_type =
        RgwFsType.RGW_FS_TYPE_DIRECTORY) ∧
    (p.is_root = false →
      (RGWFileHandle.ctor p k nm fl).bucket =
        (if p.flags &&& RGWFileHandle.FLAG_BUCKET ≠ 0 then some p
         else p.bucket)) ∧
    (RGWFileHandle.ctor p k nm fl).depth = (p.depth + 1) % 65536 ∧
    (p.depth < 65535 →
      (RGWFileHandle.ctor p k nm fl).depth = p.depth + 1) := by
  refine ⟨?_, ?_, ctor_depth p k nm fl, ?_⟩
  · intro hroot
    rw [ctor_root_eq p k nm fl hroot]
    refine ⟨?_, rfl⟩
    show (fl ||| RGWFileHandle.FLAG_BUCKET) &&&
      RGWFileHandle.FLAG_BUCKET ≠ 0
    rw [lor_land_absorb]
    decide
  · intro hroot
    rw [ctor_nonroot_eq p k nm fl hroot]
    rfl
  · intro hlt
    rw [ctor_depth p k nm fl]
    exact Nat.mod_eq_of_lt (by omega)

/-- Witness for ctor_invariants: the root clauses at the root handle, the
bucket-pointer and depth clauses at the bucket handle exBucket. -/
theorem ctor_invariants_witness :
    ((RGWFileHandle.ctor exRoot ⟨1, 2⟩ "b" 0).flags &&&
        RGWFileHandle.FLAG_BUCKET ≠ 0 ∧
      (RGWFileHandle.ctor exRoot ⟨1, 2⟩ "b" 0).fh_type =
        RgwFsType.RGW_FS_TYPE_DIRECTORY) ∧
    (RGWFileHandle.ctor exBucket ⟨1, 3⟩ "f" 0).bucket =
      (if exBucket.flags &&& RGWFileHandle.FLAG_BUCKET ≠ 0 then
         some exBucket
       else exBucket.bucket) ∧
    (RGWFileHandle.ctor exBucket ⟨1, 3⟩ "f" 0).depth =
      exBucket.depth + 1 :=
  ⟨(ctor_invariants exRoot ⟨1, 2⟩ "b" 0).1 (by decide),
   (ctor_invariants exBucket ⟨1, 3⟩ "f" 0).2.1 (by decide),
   (ctor_invariants exBucket ⟨1, 3⟩ "f" 0).2.2.2 (by decide)⟩

end rgw
